import Mathlib

/-!
Shallow embedding of ec2ssh.py (a single-file Python program that resolves
an EC2 instance by its Name tag, extracts SSH host keys from the instance
console output, caches them in a per-(id, address) known_hosts file, and
runs ssh pinned to that file, propagating the child exit status).

Python strings are modelled as lists of characters (Str).  The control
plane (boto3 client) is modelled as data: an inventory of reservations,
a console-output map, and the child ssh exit status.  The filesystem is
an association list from paths to contents.
-/

/-- A Python string: a sequence of characters. -/
abbrev Str := List Char

/-- Python s.split with separator newline: always returns at least one piece;
pieces are the maximal runs between newline characters.  Mirrors
mo.group(1).strip().split in get_ssh_host_keys_from_console_output. -/
def splitNL : Str → List Str
  | [] => [[]]
  | c :: rest =>
    match splitNL rest with
    | [] => [[]]
    | p :: ps => if c = '\n' then [] :: p :: ps else (c :: p) :: ps

/-- The whitespace characters stripped by Python str.strip with no argument
(ASCII part; the program only ever meets ASCII console output). -/
def isPySpace (c : Char) : Bool :=
  c = ' ' || c = '\t' || c = '\n' || c = '\r' || c = Char.ofNat 11 || c = Char.ofNat 12

/-- Python str.strip with no argument: drop leading and trailing whitespace. -/
def pyStrip (s : Str) : Str :=
  ((s.dropWhile isPySpace).reverse.dropWhile isPySpace).reverse

/-- The literal BEGIN marker of the regex in
get_ssh_host_keys_from_console_output. -/
def BEGIN_MARKER : Str := "-----BEGIN SSH HOST KEY KEYS-----".data

/-- The literal END marker of the regex in
get_ssh_host_keys_from_console_output. -/
def END_MARKER : Str := "-----END SSH HOST KEY KEYS-----".data

/-- Does the pattern occur in s starting at index i? -/
def matchesAt (s pat : Str) (i : Nat) : Bool :=
  (s.drop i).take pat.length = pat

/-- Smallest index i with lo ≤ i at which pat occurs in s, scanning fuel
positions upward from lo. -/
def findFrom (s pat : Str) (lo : Nat) : Nat → Option Nat
  | 0 => none
  | fuel + 1 => if matchesAt s pat lo then some lo else findFrom s pat (lo + 1) fuel

/-- Index of the first occurrence of pat in s (re.search scans left to right). -/
def findFirst (s pat : Str) : Option Nat :=
  findFrom s pat 0 (s.length + 1)

/-- Largest index i with lo ≤ i ≤ k at which pat occurs in s. -/
def findLastUpTo (s pat : Str) (lo : Nat) : Nat → Option Nat
  | 0 => if lo = 0 && matchesAt s pat 0 then some 0 else none
  | k + 1 =>
    if lo ≤ k + 1 && matchesAt s pat (k + 1) then some (k + 1)
    else findLastUpTo s pat lo k

/-- Largest index i with lo ≤ i at which pat occurs in s. -/
def findLastFrom (s pat : Str) (lo : Nat) : Option Nat :=
  findLastUpTo s pat lo s.length

/-- re.search of the pattern BEGIN_MARKER(.*)END_MARKER with re.DOTALL, the
captured group.  re.search returns the leftmost match, so the match starts at
the first occurrence of the BEGIN marker; the greedy dot-star then extends the
group to the last occurrence of the END marker at or after the end of the
BEGIN marker.  (A BEGIN occurrence can begin a match exactly when some END
occurrence follows it, and an END following a later BEGIN also follows every
earlier BEGIN, so the leftmost matchable BEGIN is the first BEGIN occurrence
whenever any match exists.) -/
def reSearchGreedy (s : Str) : Option Str :=
  match findFirst s BEGIN_MARKER with
  | none => none
  | some i =>
    match findLastFrom s END_MARKER (i + BEGIN_MARKER.length) with
    | none => none
    | some j => some ((s.take j).drop (i + BEGIN_MARKER.length))

deriving instance DecidableEq for Except

/-- Errors raised by the program (all are uncaught Python exceptions). -/
inductive Err where
  /-- args[0] on an empty argument list (line 96). -/
  | IndexError : Err
  /-- raise Exception("No instances found", name) (line 57). -/
  | NotFound : Err
  /-- raise Exception("Multiple instances found", name) (line 59). -/
  | AmbiguousName : Err
  /-- instance["PublicIpAddress"] on a record without that key (line 105). -/
  | KeyError : Err
  /-- raise Exception("No SSH HOST KEY KEYS found", instance_id) (line 73). -/
  | NoHostKeysAvailable : Err
deriving DecidableEq

/-- get_ssh_host_keys_from_console_output, lines 63-73: search the console
output for the marker block; on a match return group(1).strip().split over
newline, else raise. -/
def get_ssh_host_keys_from_console_output (output : Str) : Except Err (List Str) :=
  match reSearchGreedy output with
  | some g => .ok (splitNL (pyStrip g))
  | none => .error .NoHostKeysAvailable

/-- An EC2 instance record as returned by describe_instances, restricted to
the fields the program reads: InstanceId, PublicIpAddress (absent for
instances with no public address: reading it raises KeyError), and the tags. -/
structure Instance where
  instanceId : Str
  publicIpAddress : Option Str
  tags : List (Str × Str)
deriving DecidableEq

/-- Does the instance carry a tag with key Name and the given value?  This is
the filter dict(Name=..., Values=[name]) that describe_instances applies. -/
def hasNameTag (inst : Instance) (name : Str) : Bool :=
  inst.tags.any (fun t => t.1 = "Name".data && t.2 = name)

/-- The control-plane response to describe_instances with the tag:Name filter:
each reservation keeps exactly its instances whose Name tag equals name. -/
def describe_instances (inventory : List (List Instance)) (name : Str) :
    List (List Instance) :=
  inventory.map (fun res => res.filter (fun inst => hasNameTag inst name))

/-- The loop of get_instance_by_tag_name, lines 52-55: ret = []; for each
reservation, ret += its instances. -/
def collectInstances (response : List (List Instance)) : List Instance :=
  response.foldl (fun ret instances => ret ++ instances) []

/-- get_instance_by_tag_name, lines 49-60: query the control plane with the
tag:Name filter, flatten the reservations, raise on zero or several hits,
return the single hit. -/
def get_instance_by_tag_name (inventory : List (List Instance)) (name : Str) :
    Except Err Instance :=
  match collectInstances (describe_instances inventory name) with
  | [] => .error .NotFound
  | [inst] => .ok inst
  | _ :: _ :: _ => .error .AmbiguousName

/-- SSH_KEY_TMPDIR, line 46: os.path.expanduser of a fixed dotfile directory.
The expansion of the tilde is a fixed per-process string; we keep the literal. -/
def SSH_KEY_TMPDIR : Str := "~/.ec2ssh".data

/-- get_known_hosts_name, lines 76-78: the string pubkey-id-hostname joined
under SSH_KEY_TMPDIR (os.path.join inserts a slash: the directory does not end
with one and the file name does not start with one). -/
def get_known_hosts_name (instance_id ssh_hostname : Str) : Str :=
  SSH_KEY_TMPDIR ++ '/' :: ("pubkey-".data ++ instance_id ++ '-' :: ssh_hostname)

/-- The data string built by write_known_hosts_file, lines 82-84:
data = ""; for each key, data += hostname + " " + key + newline. -/
def write_known_hosts_data (keys : List Str) (ssh_hostname : Str) : Str :=
  keys.foldl (fun data key => data ++ (ssh_hostname ++ ' ' :: key ++ ['\n'])) []

/-- The filesystem visible to the program: paths mapped to contents.  A write
prepends, so later writes shadow earlier ones. -/
structure FS where
  files : List (Str × Str)
deriving DecidableEq

/-- os.path.exists. -/
def FS.pathExists (fs : FS) (p : Str) : Bool :=
  fs.files.any (fun e => e.1 = p)

/-- open(file_name, "w").write(data): whole-file overwrite. -/
def FS.writeFile (fs : FS) (p c : Str) : FS :=
  ⟨(p, c) :: fs.files⟩

/-- The external world: the control-plane inventory (grouped in reservations),
the console output of each instance id, and the exit status the child ssh
process will return. -/
structure Env where
  inventory : List (List Instance)
  console : Str → Str
  sshExit : Int

/-- What one run of main does, beyond its outcome: the final filesystem, how
many describe_instances calls and console-output fetches it made, the
known_hosts path it computed, and whether it reached the ssh invocation. -/
structure RunResult where
  outcome : Except Err Int
  fs : FS
  describeCalls : Nat
  consoleFetches : Nat
  knownHostsPath : Option Str
  sshInvoked : Bool
deriving DecidableEq

/-- main, lines 94-125, as a function of the world and of sys.argv[1:].
args[0] raises IndexError on an empty list; resolution errors propagate;
reading PublicIpAddress raises KeyError when the field is absent; on a cache
miss the console output is fetched, parsed and written; ssh then runs and its
exit status becomes the process exit status (sys.exit(rc)). -/
def run (env : Env) (args : List Str) (fs0 : FS) : RunResult :=
  match args with
  | [] => ⟨.error .IndexError, fs0, 0, 0, none, false⟩
  | instance_name :: _ssh_forwarded_args =>
    match get_instance_by_tag_name env.inventory instance_name with
    | .error e => ⟨.error e, fs0, 1, 0, none, false⟩
    | .ok inst =>
      match inst.publicIpAddress with
      | none => ⟨.error .KeyError, fs0, 1, 0, none, false⟩
      | some ssh_hostname =>
        let instance_id := inst.instanceId
        let file_name := get_known_hosts_name instance_id ssh_hostname
        if fs0.pathExists file_name then
          ⟨.ok env.sshExit, fs0, 1, 0, some file_name, true⟩
        else
          match get_ssh_host_keys_from_console_output (env.console instance_id) with
          | .error e => ⟨.error e, fs0, 1, 1, none, false⟩
          | .ok keys =>
            ⟨.ok env.sshExit,
             fs0.writeFile file_name (write_known_hosts_data keys ssh_hostname),
             1, 1, some file_name, true⟩

/-- All instances of the inventory, across reservations. -/
def allInstances (inventory : List (List Instance)) : List Instance :=
  inventory.flatten

/-- The instances of the inventory whose Name tag matches. -/
def matchingInstances (inventory : List (List Instance)) (name : Str) : List Instance :=
  (allInstances inventory).filter (fun inst => hasNameTag inst name)

/-- Resolution as the spec words it: exactly one matching instance is
returned; zero matches fail with NotFound; two or more fail with
AmbiguousName. -/
def resolveSpec (inventory : List (List Instance)) (name : Str) : Except Err Instance :=
  match matchingInstances inventory name with
  | [] => .error .NotFound
  | [inst] => .ok inst
  | _ :: _ :: _ => .error .AmbiguousName

/-- The lines of a written file: the pieces between newlines, dropping the
final empty piece left when the text ends in a newline (the splitlines view
of a file; write_known_hosts_file terminates every record with a newline). -/
def linesNL (s : Str) : List Str :=
  if (splitNL s).getLast? = some [] then (splitNL s).dropLast else splitNL s

/-- The keys the spec says extraction returns for a matched block: exactly
the non-empty lines inside the block content. -/
def nonEmptyLinesOf (g : Str) : List Str :=
  (splitNL g).filter (fun l => l ≠ [])

/-- End-to-end scenario A: the side-channel payload with a single key. -/
def payloadA : Str :=
  "-----BEGIN SSH HOST KEY KEYS-----\nssh-ed25519 AAAA...\n-----END SSH HOST KEY KEYS-----".data

/-- The group captured by the regex on payloadA. -/
def groupA : Str := "\nssh-ed25519 AAAA...\n".data

/-- End-to-end scenario A instance: id i-123, public address 1.2.3.4. -/
def instA : Instance :=
  { instanceId := "i-123".data, publicIpAddress := some "1.2.3.4".data,
    tags := [("Name".data, "mydev".data)] }

/-- End-to-end scenario A world, with the scenario D child exit status 255. -/
def envA : Env :=
  { inventory := [[instA]], console := fun _ => payloadA, sshExit := 255 }

/-- A payload holding two complete marker blocks. -/
def twoBlockPayload : Str :=
  ("-----BEGIN SSH HOST KEY KEYS-----\nssh-rsa K1\n-----END SSH HOST KEY KEYS-----\n" ++
   "-----BEGIN SSH HOST KEY KEYS-----\nssh-rsa K2\n-----END SSH HOST KEY KEYS-----").data

/-- The group the greedy regex captures on twoBlockPayload: it runs from the
first BEGIN marker across the first END marker and second BEGIN marker up to
the last END marker. -/
def spanTwoBlock : Str :=
  ("\nssh-rsa K1\n-----END SSH HOST KEY KEYS-----\n" ++
   "-----BEGIN SSH HOST KEY KEYS-----\nssh-rsa K2\n").data

/-- A payload whose block has a blank line between two keys. -/
def blankLinePayload : Str :=
  "-----BEGIN SSH HOST KEY KEYS-----\nssh-rsa AAA\n\nssh-ed25519 BBB\n-----END SSH HOST KEY KEYS-----".data

/-- The group captured by the regex on blankLinePayload. -/
def blankBlockContent : Str := "\nssh-rsa AAA\n\nssh-ed25519 BBB\n".data

/-- A console output with no marker block. -/
def noMarkerConsole : Str := "cloud-init boot log without a key block".data

/-- Scenario A world whose console output never shows the marker block. -/
def envNoMarker : Env :=
  { inventory := [[instA]], console := fun _ => noMarkerConsole, sshExit := 0 }

/-- An instance with a Name tag but no public address. -/
def instNoIp : Instance :=
  { instanceId := "i-789".data, publicIpAddress := none,
    tags := [("Name".data, "vpconly".data)] }

/-- A world holding only the instance without a public address. -/
def envNoIp : Env :=
  { inventory := [[instNoIp]], console := fun _ => [], sshExit := 0 }

theorem foldl_append_eq_flatten {α : Type} (l : List (List α)) (acc : List α) :
    l.foldl (fun a b => a ++ b) acc = acc ++ l.flatten := by
  induction l generalizing acc with
  | nil => simp
  | cons x xs ih => simp only [List.foldl_cons, ih, List.flatten_cons, List.append_assoc]

theorem collectInstances_describe (inventory : List (List Instance)) (name : Str) :
    collectInstances (describe_instances inventory name) =
      matchingInstances inventory name := by
  unfold collectInstances describe_instances matchingInstances allInstances
  rw [foldl_append_eq_flatten, List.nil_append]
  induction inventory with
  | nil => rfl
  | cons res rest ih =>
    simp only [List.map_cons, List.flatten_cons, List.filter_append, ih]

/-- Claim C1: for every control-plane inventory and name, resolution returns
the unique instance whose Name tag matches when exactly one matches, fails
with NotFound when none matches, and fails with AmbiguousName when two or
more match. -/
theorem resolution_cases (inventory : List (List Instance)) (name : Str) :
    get_instance_by_tag_name inventory name = resolveSpec inventory name := by
  unfold get_instance_by_tag_name resolveSpec
  rw [collectInstances_describe]

/-- Claim C10: invoked with an empty argument list, the program fails with
IndexError from the unguarded args[0], before any control-plane query
(describeCalls = 0), any side-channel fetch, or any ssh invocation. -/
theorem no_args_index_error (env : Env) (fs0 : FS) :
    run env [] fs0 = ⟨.error .IndexError, fs0, 0, 0, none, false⟩ := rfl

/-- Claim C9: when resolution succeeds but the instance record has no
PublicIpAddress field, the run fails fatally (uncaught KeyError) with the
trust store untouched, before any side-channel fetch (consoleFetches = 0)
and before any ssh invocation. -/
theorem no_public_address_fatal (env : Env) (name : Str) (rest : List Str)
    (fs0 : FS) (inst : Instance)
    (hres : get_instance_by_tag_name env.inventory name = .ok inst)
    (hip : inst.publicIpAddress = none) :
    run env (name :: rest) fs0 = ⟨.error .KeyError, fs0, 1, 0, none, false⟩ := by
  simp [run, hres, hip]

/-- Claim C6: on a cache miss, when the console output contains no marker
block, the run fails with NoHostKeysAvailable, the filesystem is returned
unchanged (no trust-store file written), and ssh is never invoked. -/
theorem missing_marker_no_write (env : Env) (name : Str) (rest : List Str)
    (fs0 : FS) (inst : Instance) (addr : Str)
    (hres : get_instance_by_tag_name env.inventory name = .ok inst)
    (hip : inst.publicIpAddress = some addr)
    (hex : fs0.pathExists (get_known_hosts_name inst.instanceId addr) = false)
    (hmark : reSearchGreedy (env.console inst.instanceId) = none) :
    run env (name :: rest) fs0 =
      ⟨.error .NoHostKeysAvailable, fs0, 1, 1, none, false⟩ := by
  simp [run, hres, hip, hex, get_ssh_host_keys_from_console_output, hmark]

/-- Claim C8: whenever the run reaches the ssh invocation, the program exit
status is exactly the child ssh exit status, unchanged. -/
theorem exit_status_propagated (env : Env) (args : List Str) (fs0 : FS)
    (h : (run env args fs0).sshInvoked = true) :
    (run env args fs0).outcome = .ok env.sshExit := by
  match args with
  | [] => simp [run] at h
  | name :: rest =>
    cases hres : get_instance_by_tag_name env.inventory name with
    | error e => simp [run, hres] at h
    | ok inst =>
      cases hip : inst.publicIpAddress with
      | none => simp [run, hres, hip] at h
      | some addr =>
        cases hex : fs0.pathExists (get_known_hosts_name inst.instanceId addr) with
        | true => simp [run, hres, hip, hex]
        | false =>
          cases hkeys : get_ssh_host_keys_from_console_output (env.console inst.instanceId) with
          | error e => simp [run, hres, hip, hex, hkeys] at h
          | ok keys => simp [run, hres, hip, hex, hkeys]

theorem findFrom_some (s pat : Str) (fuel lo i : Nat)
    (h : findFrom s pat lo fuel = some i) :
    lo ≤ i ∧ matchesAt s pat i = true ∧
      ∀ i', lo ≤ i' → i' < i → matchesAt s pat i' = false := by
  induction fuel generalizing lo with
  | zero => simp [findFrom] at h
  | succ fuel ih =>
    rw [findFrom] at h
    cases hm : matchesAt s pat lo with
    | true =>
      rw [hm, if_pos rfl] at h
      cases h
      exact ⟨Nat.le_refl _, hm, fun i' h1 h2 => absurd h1 (Nat.not_le_of_lt h2)⟩
    | false =>
      rw [hm] at h
      simp only [Bool.false_eq_true, if_false] at h
      obtain ⟨h1, h2, h3⟩ := ih (lo + 1) h
      refine ⟨Nat.le_of_succ_le h1, h2, fun i' hi1 hi2 => ?_⟩
      cases Nat.eq_or_lt_of_le hi1 with
      | inl heq => exact heq ▸ hm
      | inr hlt => exact h3 i' hlt hi2

theorem findFirst_some (s pat : Str) (i : Nat)
    (h : findFirst s pat = some i) :
    matchesAt s pat i = true ∧ ∀ i', i' < i → matchesAt s pat i' = false := by
  obtain ⟨_, h2, h3⟩ := findFrom_some s pat (s.length + 1) 0 i h
  exact ⟨h2, fun i' hi => h3 i' (Nat.zero_le _) hi⟩

theorem findLastUpTo_some (s pat : Str) (k lo j : Nat)
    (h : findLastUpTo s pat lo k = some j) :
    lo ≤ j ∧ j ≤ k ∧ matchesAt s pat j = true ∧
      ∀ j', j < j' → j' ≤ k → matchesAt s pat j' = false := by
  induction k with
  | zero =>
    rw [findLastUpTo] at h
    split at h
    · cases h
      next hc =>
        simp only [Bool.and_eq_true, decide_eq_true_eq] at hc
        exact ⟨Nat.le_of_eq hc.1, Nat.le_refl _, hc.2, fun j' h1 h2 =>
          absurd (Nat.lt_of_lt_of_le h1 h2) (Nat.lt_irrefl 0)⟩
    · cases h
  | succ k ih =>
    rw [findLastUpTo] at h
    split at h
    · cases h
      next hc =>
        simp only [Bool.and_eq_true, decide_eq_true_eq] at hc
        exact ⟨hc.1, Nat.le_refl _, hc.2, fun j' h1 h2 =>
          absurd (Nat.lt_of_lt_of_le h1 h2) (Nat.lt_irrefl _)⟩
    · next hc =>
      simp only [Bool.and_eq_true, decide_eq_true_eq, Decidable.not_and_iff_or_not] at hc
      obtain ⟨h1, h2, h3, h4⟩ := ih h
      refine ⟨h1, Nat.le_succ_of_le h2, h3, fun j' hj1 hj2 => ?_⟩
      cases Nat.eq_or_lt_of_le hj2 with
      | inl heq =>
        subst heq
        cases hc with
        | inl hlo => exact absurd (Nat.le_trans h1 (Nat.le_of_lt hj1)) hlo
        | inr hm => exact Bool.not_eq_true _ ▸ Bool.eq_false_iff.mpr hm
      | inr hlt => exact h4 j' hj1 (Nat.le_of_lt_succ hlt)

theorem matchesAt_ge_length (s pat : Str) (i : Nat)
    (hpat : pat ≠ []) (hi : s.length ≤ i) : matchesAt s pat i = false := by
  unfold matchesAt
  rw [List.drop_eq_nil_of_le hi]
  simp only [List.take_nil, decide_eq_false_iff_not]
  exact fun hc => hpat hc.symm

theorem END_MARKER_ne_nil : END_MARKER ≠ [] := by decide

/-- Claim C7: whenever extraction matches, the captured content starts right
after the first occurrence of the BEGIN marker in the payload and ends at the
last occurrence of the END marker in the whole payload (greedy
across-newlines matching): first-BEGIN to last-END, not first-BEGIN to
first-END. -/
theorem extraction_first_begin_last_end (s g : Str)
    (h : reSearchGreedy s = some g) :
    ∃ i j,
      matchesAt s BEGIN_MARKER i = true ∧
      (∀ i', i' < i → matchesAt s BEGIN_MARKER i' = false) ∧
      i + BEGIN_MARKER.length ≤ j ∧
      matchesAt s END_MARKER j = true ∧
      (∀ j', j < j' → matchesAt s END_MARKER j' = false) ∧
      g = (s.take j).drop (i + BEGIN_MARKER.length) := by
  unfold reSearchGreedy at h
  split at h
  · cases h
  · next i hf =>
    split at h
    · cases h
    · next j hl =>
      cases h
      obtain ⟨hb1, hb2⟩ := findFirst_some s BEGIN_MARKER i hf
      obtain ⟨he1, _, he3, he4⟩ :=
        findLastUpTo_some s END_MARKER s.length (i + BEGIN_MARKER.length) j hl
      refine ⟨i, j, hb1, hb2, he1, he3, fun j' hj => ?_, rfl⟩
      by_cases hj' : j' ≤ s.length
      · exact he4 j' hj hj'
      · exact matchesAt_ge_length s END_MARKER j' END_MARKER_ne_nil
          (Nat.le_of_lt (Nat.lt_of_not_le hj'))

theorem splitNL_ne_nil (s : Str) : splitNL s ≠ [] := by
  cases s with
  | nil => simp [splitNL]
  | cons c rest =>
    rw [splitNL]
    cases h : splitNL rest with
    | nil => simp
    | cons p ps =>
      by_cases hc : c = '\n' <;> simp [hc]

theorem splitNL_cons_newline (rest : Str) :
    splitNL ('\n' :: rest) = [] :: splitNL rest := by
  rw [splitNL]
  cases h : splitNL rest with
  | nil => exact absurd h (splitNL_ne_nil rest)
  | cons p ps => simp

theorem splitNL_cons_other (c : Char) (rest q : Str) (qs : List Str)
    (hc : c ≠ '\n') (hr : splitNL rest = q :: qs) :
    splitNL (c :: rest) = (c :: q) :: qs := by
  rw [splitNL, hr]
  simp [hc]

theorem splitNL_append_line (x y : Str) (hx : '\n' ∉ x) :
    splitNL (x ++ '\n' :: y) = x :: splitNL y := by
  induction x with
  | nil => simpa using splitNL_cons_newline y
  | cons c x ih =>
    have hc : c ≠ '\n' := fun hcn => hx (hcn ▸ List.mem_cons_self c x)
    have hx' : '\n' ∉ x := fun hm => hx (List.mem_cons_of_mem c hm)
    rw [List.cons_append, splitNL_cons_other c _ x (splitNL y) hc (ih hx')]

theorem mem_splitNL_no_newline (s p : Str) (hp : p ∈ splitNL s) : '\n' ∉ p := by
  induction s generalizing p with
  | nil =>
    simp only [splitNL, List.mem_singleton] at hp
    subst hp
    simp
  | cons c rest ih =>
    cases hr : splitNL rest with
    | nil => exact absurd hr (splitNL_ne_nil rest)
    | cons q qs =>
      by_cases hc : c = '\n'
      · subst hc
        rw [splitNL_cons_newline] at hp
        cases hp with
        | head => simp
        | tail _ hm => exact ih p hm
      · rw [splitNL_cons_other c rest q qs hc hr] at hp
        cases hp with
        | head =>
          intro hmem
          cases hmem with
          | head => exact hc rfl
          | tail _ hm => exact ih q (by rw [hr]; exact List.mem_cons_self q qs) hm
        | tail _ hm => exact ih p (by rw [hr]; exact List.mem_cons_of_mem q hm)

theorem write_known_hosts_data_acc (keys : List Str) (addr : Str) (acc : Str) :
    keys.foldl (fun data key => data ++ (addr ++ ' ' :: key ++ ['\n'])) acc =
      acc ++ (keys.map (fun key => addr ++ ' ' :: key ++ ['\n'])).flatten := by
  induction keys generalizing acc with
  | nil => simp
  | cons k ks ih =>
    rw [List.foldl_cons, ih]
    simp [List.append_assoc]

theorem splitNL_write_data (keys : List Str) (addr : Str)
    (haddr : '\n' ∉ addr) (hkeys : ∀ k ∈ keys, '\n' ∉ k) :
    splitNL (write_known_hosts_data keys addr) =
      keys.map (fun k => addr ++ ' ' :: k) ++ [[]] := by
  unfold write_known_hosts_data
  rw [write_known_hosts_data_acc, List.nil_append]
  induction keys with
  | nil => rfl
  | cons k ks ih =>
    have hline : '\n' ∉ addr ++ ' ' :: k := by
      intro hm
      cases List.mem_append.mp hm with
      | inl h => exact haddr h
      | inr h =>
        cases h with
        | tail _ h2 => exact hkeys k (List.mem_cons_self k ks) h2
    have hrest : ∀ k' ∈ ks, '\n' ∉ k' := fun k' hk' => hkeys k' (List.mem_cons_of_mem k hk')
    have hsplit : ((k :: ks).map (fun key => addr ++ ' ' :: key ++ ['\n'])).flatten =
        (addr ++ ' ' :: k) ++ '\n' ::
          (ks.map (fun key => addr ++ ' ' :: key ++ ['\n'])).flatten := by
      simp [List.append_assoc]
    rw [hsplit, splitNL_append_line _ _ hline, ih hrest]
    simp

/-- Claim C2: for every payload from which extraction succeeds and every
newline-free address, the written trust-record file contains exactly one line
per extracted key, in extraction order, each line being the address, a space,
and the key line. -/
theorem trust_record_lines (payload addr : Str) (keys : List Str)
    (hk : get_ssh_host_keys_from_console_output payload = .ok keys)
    (haddr : '\n' ∉ addr) :
    linesNL (write_known_hosts_data keys addr) =
      keys.map (fun k => addr ++ ' ' :: k) := by
  have hkeys : ∀ k ∈ keys, '\n' ∉ k := by
    unfold get_ssh_host_keys_from_console_output at hk
    cases hg : reSearchGreedy payload with
    | none => rw [hg] at hk; cases hk
    | some g =>
      rw [hg] at hk
      cases hk
      exact fun k hm => mem_splitNL_no_newline _ k hm
  have hs := splitNL_write_data keys addr haddr hkeys
  unfold linesNL
  rw [hs, List.getLast?_concat, if_pos rfl, List.dropLast_concat]

/-- Claim C2 witness: end-to-end scenario A with payloadA and address
1.2.3.4; the file holds the single line for the single extracted key. -/
theorem trust_record_lines_witness :
    get_ssh_host_keys_from_console_output payloadA = .ok ["ssh-ed25519 AAAA...".data] ∧
    '\n' ∉ "1.2.3.4".data ∧
    linesNL (write_known_hosts_data ["ssh-ed25519 AAAA...".data] "1.2.3.4".data) =
      ["1.2.3.4 ssh-ed25519 AAAA...".data] := by
  refine ⟨by decide, by decide, ?_⟩
  rw [trust_record_lines payloadA "1.2.3.4".data ["ssh-ed25519 AAAA...".data]
    (by decide) (by decide)]
  decide

/-- Claim C5 (counterexample): the claim that blank lines anywhere inside the
block never become keys is false: on a block with a blank line between two
keys, extraction returns the empty line as a key, so the returned keys differ
from the non-empty lines of the block. -/
theorem blank_interior_line_becomes_key :
    reSearchGreedy blankLinePayload = some blankBlockContent ∧
    get_ssh_host_keys_from_console_output blankLinePayload =
      .ok ["ssh-rsa AAA".data, [], "ssh-ed25519 BBB".data] ∧
    nonEmptyLinesOf blankBlockContent = ["ssh-rsa AAA".data, "ssh-ed25519 BBB".data] ∧
    (["ssh-rsa AAA".data, [], "ssh-ed25519 BBB".data] : List Str) ≠
      nonEmptyLinesOf blankBlockContent := by
  refine ⟨by decide, by decide, by decide, by decide⟩

/-- Claim C5 (amended): leading and trailing whitespace of the block content
is stripped before splitting, so edge blank lines never become keys; when the
stripped content has no interior blank line, the returned keys are exactly
its non-empty lines.  (An interior blank line, however, is returned as an
empty key, per the counterexample.) -/
theorem keys_nonempty_lines_no_interior_blank (s g : Str)
    (h : reSearchGreedy s = some g)
    (hnb : ([] : Str) ∉ splitNL (pyStrip g)) :
    get_ssh_host_keys_from_console_output s = .ok (nonEmptyLinesOf (pyStrip g)) := by
  have hfilter : (splitNL (pyStrip g)).filter (fun l => l ≠ []) = splitNL (pyStrip g) :=
    List.filter_eq_self.mpr (fun a ha => decide_eq_true (fun he : a = [] => hnb (he ▸ ha)))
  unfold get_ssh_host_keys_from_console_output
  rw [h]
  show Except.ok (splitNL (pyStrip g)) = Except.ok (nonEmptyLinesOf (pyStrip g))
  unfold nonEmptyLinesOf
  rw [hfilter]

/-- Claim C5 witness: scenario A block content has no interior blank line and
extraction yields exactly its non-empty lines. -/
theorem keys_nonempty_lines_no_interior_blank_witness :
    reSearchGreedy payloadA = some groupA ∧
    ([] : Str) ∉ splitNL (pyStrip groupA) ∧
    get_ssh_host_keys_from_console_output payloadA =
      .ok (nonEmptyLinesOf (pyStrip groupA)) :=
  ⟨by decide, by decide,
   keys_nonempty_lines_no_interior_blank payloadA groupA (by decide) (by decide)⟩

/-- Claim C3 (counterexample): the trust-store path is not injective over all
(id, address) pairs: a hyphen in the address lets two distinct pairs collide
on the same path. -/
theorem known_hosts_name_collision :
    get_known_hosts_name "i-0a".data "1-2.3.4".data =
      get_known_hosts_name "i-0a-1".data "2.3.4".data ∧
    ¬("i-0a".data = "i-0a-1".data ∧ "1-2.3.4".data = "2.3.4".data) := by
  refine ⟨by decide, by decide⟩

theorem sep_split_inj (c : Char) (x1 y1 x2 y2 : Str)
    (h1 : c ∉ x1) (h2 : c ∉ x2) (h : x1 ++ c :: y1 = x2 ++ c :: y2) :
    x1 = x2 ∧ y1 = y2 := by
  induction x1 generalizing x2 with
  | nil =>
    cases x2 with
    | nil => simpa using h
    | cons d x2' =>
      simp only [List.nil_append, List.cons_append, List.cons.injEq] at h
      have : c ∈ d :: x2' := by rw [h.1]; exact List.mem_cons_self d x2'
      exact absurd this h2
  | cons a x1' ih =>
    cases x2 with
    | nil =>
      simp only [List.cons_append, List.nil_append, List.cons.injEq] at h
      have : c ∈ a :: x1' := by rw [← h.1]; exact List.mem_cons_self a x1'
      exact absurd this h1
    | cons b x2' =>
      simp only [List.cons_append, List.cons.injEq] at h
      obtain ⟨hab, hrest⟩ := h
      have h1' : c ∉ x1' := fun hm => h1 (List.mem_cons_of_mem a hm)
      have h2' : c ∉ x2' := fun hm => h2 (List.mem_cons_of_mem b hm)
      obtain ⟨hx, hy⟩ := ih x2' h1' h2' hrest
      exact ⟨by rw [hab, hx], hy⟩

theorem last_sep_inj (c : Char) (x1 y1 x2 y2 : Str)
    (h1 : c ∉ y1) (h2 : c ∉ y2) (h : x1 ++ c :: y1 = x2 ++ c :: y2) :
    x1 = x2 ∧ y1 = y2 := by
  have hrev : y1.reverse ++ c :: x1.reverse = y2.reverse ++ c :: x2.reverse := by
    have := congrArg List.reverse h
    simpa [List.reverse_append] using this
  have h1r : c ∉ y1.reverse := fun hm => h1 (List.mem_reverse.mp hm)
  have h2r : c ∉ y2.reverse := fun hm => h2 (List.mem_reverse.mp hm)
  obtain ⟨hy, hx⟩ := sep_split_inj c y1.reverse x1.reverse y2.reverse x2.reverse h1r h2r hrev
  exact ⟨List.reverse_injective hx, List.reverse_injective hy⟩

/-- Claim C3 (amended): the trust-store path is deterministic (a pure
function of the pair), and it is injective on pairs whose addresses contain
no hyphen (dotted-quad IP addresses never do): for such pairs, equal paths
force equal ids and equal addresses, and conversely. -/
theorem known_hosts_name_inj (id1 a1 id2 a2 : Str)
    (h1 : '-' ∉ a1) (h2 : '-' ∉ a2) :
    get_known_hosts_name id1 a1 = get_known_hosts_name id2 a2 ↔
      (id1 = id2 ∧ a1 = a2) := by
  constructor
  · intro h
    unfold get_known_hosts_name at h
    have h0 := List.append_cancel_left h
    injection h0 with _ h0
    obtain ⟨hx, hy⟩ := last_sep_inj '-' ("pubkey-".data ++ id1) a1 ("pubkey-".data ++ id2) a2 h1 h2 h0
    exact ⟨List.append_cancel_left hx, hy⟩
  · rintro ⟨rfl, rfl⟩
    rfl

/-- Claim C3 witness: two hyphen-free addresses; the characterization applied
to concrete distinct pairs. -/
theorem known_hosts_name_inj_witness :
    '-' ∉ "1.2.3.4".data ∧ '-' ∉ "5.6.7.8".data ∧
    (get_known_hosts_name "i-123".data "1.2.3.4".data =
       get_known_hosts_name "i-456".data "5.6.7.8".data ↔
     ("i-123".data = "i-456".data ∧ "1.2.3.4".data = "5.6.7.8".data)) :=
  ⟨by decide, by decide,
   known_hosts_name_inj "i-123".data "1.2.3.4".data "i-456".data "5.6.7.8".data
     (by decide) (by decide)⟩

/-- Claim C4: when a run succeeds, a second run with the same world and
arguments performs no side-channel fetch (the trust-store file for the pair
already exists), yields the identical trust-store path, and leaves the
filesystem - hence the file contents - unchanged. -/
theorem second_run_uses_cache (env : Env) (args : List Str) (fs0 : FS)
    (h : (run env args fs0).outcome.isOk = true) :
    (run env args (run env args fs0).fs).consoleFetches = 0 ∧
    (run env args (run env args fs0).fs).knownHostsPath =
      (run env args fs0).knownHostsPath ∧
    (run env args (run env args fs0).fs).fs = (run env args fs0).fs := by
  match args with
  | [] => simp [run, Except.isOk, Except.toBool] at h
  | name :: rest =>
    cases hres : get_instance_by_tag_name env.inventory name with
    | error e => simp [run, hres, Except.isOk, Except.toBool] at h
    | ok inst =>
      cases hip : inst.publicIpAddress with
      | none => simp [run, hres, hip, Except.isOk, Except.toBool] at h
      | some addr =>
        cases hex : fs0.pathExists (get_known_hosts_name inst.instanceId addr) with
        | true => simp [run, hres, hip, hex]
        | false =>
          cases hkeys : get_ssh_host_keys_from_console_output (env.console inst.instanceId) with
          | error e => simp [run, hres, hip, hex, hkeys, Except.isOk, Except.toBool] at h
          | ok keys =>
            have hex2 : (fs0.writeFile (get_known_hosts_name inst.instanceId addr)
                (write_known_hosts_data keys addr)).pathExists
                (get_known_hosts_name inst.instanceId addr) = true := by
              simp [FS.pathExists, FS.writeFile]
            simp [run, hres, hip, hex, hkeys, hex2]

/-- Claim C4 witness: scenario A run from an empty trust store, then again on
the resulting filesystem: no fetch, same path, unchanged filesystem. -/
theorem second_run_uses_cache_witness :
    (run envA ["mydev".data] ⟨[]⟩).outcome.isOk = true ∧
    ((run envA ["mydev".data] (run envA ["mydev".data] ⟨[]⟩).fs).consoleFetches = 0 ∧
     (run envA ["mydev".data] (run envA ["mydev".data] ⟨[]⟩).fs).knownHostsPath =
       (run envA ["mydev".data] ⟨[]⟩).knownHostsPath ∧
     (run envA ["mydev".data] (run envA ["mydev".data] ⟨[]⟩).fs).fs =
       (run envA ["mydev".data] ⟨[]⟩).fs) :=
  ⟨by decide, second_run_uses_cache envA ["mydev".data] ⟨[]⟩ (by decide)⟩

/-- Claim C6 witness: scenario A instance with a markerless console output
and an empty trust store: NoHostKeysAvailable, nothing written, no ssh. -/
theorem missing_marker_no_write_witness :
    get_instance_by_tag_name envNoMarker.inventory "mydev".data = .ok instA ∧
    instA.publicIpAddress = some "1.2.3.4".data ∧
    FS.pathExists ⟨[]⟩ (get_known_hosts_name instA.instanceId "1.2.3.4".data) = false ∧
    reSearchGreedy (envNoMarker.console instA.instanceId) = none ∧
    run envNoMarker ["mydev".data] ⟨[]⟩ =
      ⟨.error .NoHostKeysAvailable, ⟨[]⟩, 1, 1, none, false⟩ :=
  ⟨by decide, by decide, by decide, by decide,
   missing_marker_no_write envNoMarker "mydev".data [] ⟨[]⟩ instA "1.2.3.4".data
     (by decide) (by decide) (by decide) (by decide)⟩

set_option maxRecDepth 8192 in
/-- Claim C7 witness: a payload with two complete marker blocks; extraction
captures from the first BEGIN to the last END, so the captured span includes
the first END marker and the second BEGIN marker. -/
theorem extraction_first_begin_last_end_witness :
    reSearchGreedy twoBlockPayload = some spanTwoBlock ∧
    (∃ i j,
      matchesAt twoBlockPayload BEGIN_MARKER i = true ∧
      (∀ i', i' < i → matchesAt twoBlockPayload BEGIN_MARKER i' = false) ∧
      i + BEGIN_MARKER.length ≤ j ∧
      matchesAt twoBlockPayload END_MARKER j = true ∧
      (∀ j', j < j' → matchesAt twoBlockPayload END_MARKER j' = false) ∧
      spanTwoBlock = (twoBlockPayload.take j).drop (i + BEGIN_MARKER.length)) :=
  ⟨by decide,
   extraction_first_begin_last_end twoBlockPayload spanTwoBlock (by decide)⟩

/-- Claim C8 witness: end-to-end scenario D inside scenario A: the child ssh
exit status 255 becomes the program exit status 255. -/
theorem exit_status_propagated_witness :
    (run envA ["mydev".data] ⟨[]⟩).sshInvoked = true ∧
    (run envA ["mydev".data] ⟨[]⟩).outcome = .ok 255 :=
  ⟨by decide, exit_status_propagated envA ["mydev".data] ⟨[]⟩ (by decide)⟩

/-- Claim C9 witness: an instance resolved by name but with no public
address: fatal KeyError, no fetch, no ssh, trust store untouched. -/
theorem no_public_address_fatal_witness :
    get_instance_by_tag_name envNoIp.inventory "vpconly".data = .ok instNoIp ∧
    instNoIp.publicIpAddress = none ∧
    run envNoIp ["vpconly".data] ⟨[]⟩ = ⟨.error .KeyError, ⟨[]⟩, 1, 0, none, false⟩ :=
  ⟨by decide, by decide,
   no_public_address_fatal envNoIp "vpconly".data [] ⟨[]⟩ instNoIp
     (by decide) (by decide)⟩
